import Mathlib

/-!
Verification of the Renaissance betting backend core: the idempotent
settlement state machine (`SettlementService.settleBet`), the
reconciliation sweeper (`SettlementService.reconcile`), the blockchain
gateway stub (`SorobanService.invokeContract`), and the leaderboard stat
aggregation handler (`handleBetSettled`).

The embedding follows the TypeScript sources:
  - `src/backend/src/blockchain/settlement.service.ts`
  - the Soroban gateway service (`invokeContract`)
  - the leaderboard event handler described by the repository docs.

Asynchronous repository calls are modelled by explicit state passing over
a `List Settlement` store; thrown exceptions by `Except`; the external
gateway by an `Except`-valued parameter giving the outcome of the single
possible `invokeContract` call; the wall clock (`Date.now()`) by a `Nat`
parameter.
-/

namespace Renaissance

/-- Status enum of a settlement record
(`SettlementStatus` in `settlement.entity.ts`). -/
inductive SettlementStatus where
  | PENDING
  | CONFIRMED
  | FAILED
deriving DecidableEq, Repr

/-- A row of the settlements table (`Settlement` entity): the idempotency
reference, the bet data, the status and the optional transaction hash.
`id` is the database primary key assigned on first save. -/
structure Settlement where
  id : Nat
  referenceId : String
  betId : String
  outcome : String
  amount : Nat
  status : SettlementStatus
  txHash : Option String
deriving DecidableEq, Repr

/-- `settlementRepository.findOne({ where: { referenceId } })`:
first record in the table whose `referenceId` matches. -/
def findOne (store : List Settlement) (ref : String) : Option Settlement :=
  store.find? (fun t => decide (t.referenceId = ref))

/-- Look a record up by its primary key. -/
def findById (store : List Settlement) (i : Nat) : Option Settlement :=
  store.find? (fun t => decide (t.id = i))

/-- `settlementRepository.save(s)`: update the row with `s.id` when it
exists, otherwise insert `s` as a new row. -/
def save (store : List Settlement) (s : Settlement) : List Settlement :=
  if store.any (fun t => decide (t.id = s.id)) then
    store.map (fun t => if t.id = s.id then s else t)
  else
    store ++ [s]

/-- Observable repository/gateway actions performed by `settleBet`, in
program order: a `settlementRepository.save` of a given row, or the
`sorobanService.invokeContract` call. -/
inductive Ev where
  | save : Settlement → Ev
  | gatewayCall : Ev
deriving DecidableEq, Repr

/-- Number of `invokeContract` calls in an action trace. -/
def countGatewayCalls (tr : List Ev) : Nat :=
  tr.countP (fun e => match e with | Ev.gatewayCall => true | _ => false)

/-- Outcome of one `settleBet` run: the table afterwards, the returned
record (or the re-raised gateway error), and the action trace. -/
structure SettleResult where
  store : List Settlement
  ret : Except String Settlement
  trace : List Ev
deriving Repr

/-- The fresh record created in step 2 of `settleBet`
(`settlementRepository.create({...status: PENDING})`), with the primary
key the insert will assign. -/
def mkPending (nextId : Nat) (betId outcome : String) (amount : Nat) : Settlement :=
  { id := nextId
    referenceId := "settle_" ++ betId
    betId := betId
    outcome := outcome
    amount := amount
    status := SettlementStatus.PENDING
    txHash := none }

/-- Steps 2-4 of `settleBet`: persist a fresh PENDING record, invoke the
gateway; on success attach the returned `txHash` and persist again; on a
thrown error set the status to FAILED, persist, and re-raise.
`gateway` is the outcome `sorobanService.invokeContract` would produce. -/
def submitFresh (store : List Settlement) (nextId : Nat)
    (gateway : Except String String) (betId outcome : String) (amount : Nat) :
    SettleResult :=
  let settlement := mkPending nextId betId outcome amount
  let store1 := save store settlement
  match gateway with
  | Except.ok txHash =>
      let s2 := { settlement with txHash := some txHash }
      { store := save store1 s2
        ret := Except.ok s2
        trace := [Ev.save settlement, Ev.gatewayCall, Ev.save s2] }
  | Except.error e =>
      let s2 := { settlement with status := SettlementStatus.FAILED }
      { store := save store1 s2
        ret := Except.error e
        trace := [Ev.save settlement, Ev.gatewayCall, Ev.save s2] }

/-- `SettlementService.settleBet(betId, outcome, amount)`: compute the
idempotency reference, look up an existing record; return it unchanged
when CONFIRMED or PENDING; otherwise (no record, or an existing FAILED
record — the FAILED branch falls through in the source) run the fresh
submission path. -/
def settleBet (store : List Settlement) (nextId : Nat)
    (gateway : Except String String) (betId outcome : String) (amount : Nat) :
    SettleResult :=
  let referenceId := "settle_" ++ betId
  match findOne store referenceId with
  | some existing =>
      if existing.status = SettlementStatus.CONFIRMED then
        { store := store, ret := Except.ok existing, trace := [] }
      else if existing.status = SettlementStatus.PENDING then
        { store := store, ret := Except.ok existing, trace := [] }
      else
        submitFresh store nextId gateway betId outcome amount
  | none => submitFresh store nextId gateway betId outcome amount

/-- Outcome of one `reconcile` run: the table afterwards, whether the
sweep was aborted by an uncaught exception, and the number of gateway
status queries issued (the source's `getTransactionStatus` call is
commented out, so the loop performs none). -/
structure ReconcileResult where
  store : List Settlement
  aborted : Bool
  gatewayQueries : Nat
deriving Repr

/-- Loop body of `SettlementService.reconcile` over the snapshot of
PENDING records. `saveFails s = true` models `settlementRepository.save(s)`
throwing. A record without `txHash` is marked FAILED and saved outside
any try/catch, so a throwing save aborts the sweep; a record with
`txHash` is marked CONFIRMED inside the try block, so a throwing save is
caught and the loop continues. -/
def reconcileLoop (saveFails : Settlement → Bool) :
    List Settlement → List Settlement → ReconcileResult
  | store, [] => { store := store, aborted := false, gatewayQueries := 0 }
  | store, s :: rest =>
    match s.txHash with
    | none =>
        let s1 := { s with status := SettlementStatus.FAILED }
        if saveFails s1 then
          { store := store, aborted := true, gatewayQueries := 0 }
        else
          reconcileLoop saveFails (save store s1) rest
    | some _ =>
        let s1 := { s with status := SettlementStatus.CONFIRMED }
        if saveFails s1 then
          reconcileLoop saveFails store rest
        else
          reconcileLoop saveFails (save store s1) rest

/-- `SettlementService.reconcile()`: fetch all PENDING records, then run
the per-record loop over that snapshot. -/
def reconcile (saveFails : Settlement → Bool) (store : List Settlement) :
    ReconcileResult :=
  reconcileLoop saveFails store
    (store.filter (fun s => decide (s.status = SettlementStatus.PENDING)))

/-- A store whose `save` never throws. -/
def noFail : Settlement → Bool := fun _ => false

/-- Result of the Stellar RPC account lookup
(`server.getAccount(adminKeypair.publicKey())`); only presence matters. -/
structure Account where
  sequence : Nat
deriving DecidableEq, Repr

/-- Outcome of one `SorobanService.invokeContract` run: the returned
transaction-hash string (or the re-raised error), and the list of
transactions actually submitted to the chain — the source never reaches
`sendTransaction`, so this list is always empty. -/
structure InvokeResult where
  result : Except String String
  submitted : List String
deriving Repr

/-- `SorobanService.invokeContract(functionName, args)`: look the admin
account up over RPC (a thrown error is logged and re-raised); on success
skip the placeholder transaction-building section and return the string
`mock_tx_hash_` followed by `Date.now()`, submitting nothing. -/
def invokeContract (getAccount : Except String Account) (now : Nat)
    (functionName : String) (args : List String) : InvokeResult :=
  match getAccount with
  | Except.ok _ =>
      { result := Except.ok ("mock_tx_hash_" ++ toString now), submitted := [] }
  | Except.error e => { result := Except.error e, submitted := [] }

/-- The `BetSettled` event envelope: the fact that a bet resolved, with
its outcome and payout. -/
structure BetSettledEvent where
  userId : String
  betId : String
  matchId : String
  isWin : Bool
  stakeAmount : ℚ
  winningsAmount : ℚ
  timestamp : Nat
deriving DecidableEq, Repr

/-- Betting statistics of one user's leaderboard row. -/
structure LeaderboardStats where
  totalBets : Nat
  betsWon : Nat
  betsLost : Nat
  totalWinnings : ℚ
  bettingAccuracy : ℚ
  winningStreak : Nat
  highestWinningStreak : Nat
deriving DecidableEq, Repr

/-- Round a rational to two decimal places, `round(q, 2)`. -/
def round2 (q : ℚ) : ℚ := ((round (q * 100) : ℤ) : ℚ) / 100

/-- The lazily created leaderboard row: all counters zeroed. -/
def initStats : LeaderboardStats :=
  { totalBets := 0
    betsWon := 0
    betsLost := 0
    totalWinnings := 0
    bettingAccuracy := 0
    winningStreak := 0
    highestWinningStreak := 0 }

/-- Modelled from the spec: `LeaderboardService.handleBetSettled` — the
file `src/leaderboard/leaderboard.service.ts` is absent from the
repository snapshot (only `LEADERBOARD_IMPLEMENTATION.md` describes it).
Per the spec: increment `totalBets`; increment `betsWon` or `betsLost`
per `isWin`; on a win add `winningsAmount` to `totalWinnings`, increment
`winningStreak` and raise `highestWinningStreak` to the max; on a loss
reset `winningStreak` to 0; recompute
`bettingAccuracy = round(betsWon / totalBets * 100, 2)` from the updated
counters. -/
def handleBetSettled (s : LeaderboardStats) (e : BetSettledEvent) :
    LeaderboardStats :=
  let totalBets := s.totalBets + 1
  let betsWon := if e.isWin then s.betsWon + 1 else s.betsWon
  let betsLost := if e.isWin then s.betsLost else s.betsLost + 1
  let winningStreak := if e.isWin then s.winningStreak + 1 else 0
  let highestWinningStreak :=
    if e.isWin then max s.highestWinningStreak (s.winningStreak + 1)
    else s.highestWinningStreak
  let totalWinnings :=
    if e.isWin then s.totalWinnings + e.winningsAmount else s.totalWinnings
  { totalBets := totalBets
    betsWon := betsWon
    betsLost := betsLost
    totalWinnings := totalWinnings
    bettingAccuracy := round2 ((betsWon : ℚ) / (totalBets : ℚ) * 100)
    winningStreak := winningStreak
    highestWinningStreak := highestWinningStreak }

/-- Apply a sequence of `BetSettled` events to the fresh row, in delivery
order. -/
def applyEvents (l : List BetSettledEvent) : LeaderboardStats :=
  l.foldl handleBetSettled initStats

/-! ### Store lemmas -/

theorem save_fresh (store : List Settlement) (s : Settlement)
    (hid : ∀ t ∈ store, t.id ≠ s.id) : save store s = store ++ [s] := by
  unfold save
  have hany : store.any (fun t => decide (t.id = s.id)) = false := by
    rw [List.any_eq_false]
    intro t ht
    simp [hid t ht]
  rw [hany]
  simp

theorem save_update_append (store : List Settlement) (s s2 : Settlement)
    (hid : ∀ t ∈ store, t.id ≠ s.id) (hss : s2.id = s.id) :
    save (store ++ [s]) s2 = store ++ [s2] := by
  unfold save
  have hany : (store ++ [s]).any (fun t => decide (t.id = s2.id)) = true := by
    rw [List.any_eq_true]
    exact ⟨s, by simp, by simp [hss]⟩
  rw [hany]
  simp only [if_true, List.map_append]
  congr 1
  · calc store.map (fun t => if t.id = s2.id then s2 else t)
        = store.map id := by
          apply List.map_congr_left
          intro a ha
          have : a.id ≠ s2.id := by rw [hss]; exact hid a ha
          simp [this]
      _ = store := List.map_id store
  · simp [hss]

/-! ### Claim theorems: settleBet request path -/

/-- C10: `SorobanService.invokeContract` never submits anything to the
external chain — whenever the RPC account lookup succeeds it returns the
locally fabricated string `mock_tx_hash_` followed by the current time,
and its list of chain submissions is empty, so every settlement that
reaches the submission step records a mock transaction handle and no real
external settlement effect occurs. -/
theorem invokeContract_returns_mock (acct : Account) (now : Nat)
    (functionName : String) (args : List String) :
    (invokeContract (Except.ok acct) now functionName args).result =
        Except.ok ("mock_tx_hash_" ++ toString now) ∧
    (invokeContract (Except.ok acct) now functionName args).submitted = [] :=
  ⟨rfl, rfl⟩

/-- C6: when a record for `settle_<betId>` exists with status PENDING,
`settleBet` returns it unchanged, leaves the store unchanged, and
performs no repository write and no gateway call (empty trace). -/
theorem settleBet_pending_returns_existing (store : List Settlement)
    (nextId : Nat) (gateway : Except String String) (betId outcome : String)
    (amount : Nat) (e : Settlement)
    (hfind : findOne store ("settle_" ++ betId) = some e)
    (hp : e.status = SettlementStatus.PENDING) :
    settleBet store nextId gateway betId outcome amount =
      { store := store, ret := Except.ok e, trace := [] } := by
  simp only [settleBet]
  rw [hfind]
  simp [hp]

/-- Witness instantiating `settleBet_pending_returns_existing` at a
concrete store holding one PENDING record. -/
def c6Pending : Settlement :=
  { id := 3, referenceId := "settle_bet9", betId := "bet9", outcome := "WIN",
    amount := 25, status := SettlementStatus.PENDING, txHash := none }

theorem settleBet_pending_returns_existing_witness :
    settleBet [c6Pending] 4 (Except.ok "h") "bet9" "WIN" 25 =
      { store := [c6Pending], ret := Except.ok c6Pending, trace := [] } :=
  settleBet_pending_returns_existing [c6Pending] 4 (Except.ok "h") "bet9"
    "WIN" 25 c6Pending (by decide) (by decide)

/-- C5: on a fresh settlement (no record for `settle_<betId>`) with a
successful gateway call returning `h`, the trace is exactly: persist the
new PENDING record (with no `txHash`), invoke the gateway, persist the
record again with `txHash := h`; the returned record carries the hash
and its status is still PENDING, not CONFIRMED. -/
theorem settleBet_fresh_success (store : List Settlement) (nextId : Nat)
    (betId outcome : String) (amount : Nat) (h : String)
    (hnone : findOne store ("settle_" ++ betId) = none) :
    (settleBet store nextId (Except.ok h) betId outcome amount).trace =
      [Ev.save (mkPending nextId betId outcome amount), Ev.gatewayCall,
       Ev.save { mkPending nextId betId outcome amount with txHash := some h }] ∧
    (settleBet store nextId (Except.ok h) betId outcome amount).ret =
      Except.ok { mkPending nextId betId outcome amount with txHash := some h } ∧
    (mkPending nextId betId outcome amount).status = SettlementStatus.PENDING ∧
    (mkPending nextId betId outcome amount).txHash = none ∧
    ({ mkPending nextId betId outcome amount with txHash := some h }).status =
      SettlementStatus.PENDING := by
  simp only [settleBet]
  rw [hnone]
  exact ⟨rfl, rfl, rfl, rfl, rfl⟩

/-- Witness instantiating `settleBet_fresh_success` on the empty store. -/
theorem settleBet_fresh_success_witness :
    (settleBet [] 0 (Except.ok "hash9") "bet123" "WIN" 100).trace =
      [Ev.save (mkPending 0 "bet123" "WIN" 100), Ev.gatewayCall,
       Ev.save { mkPending 0 "bet123" "WIN" 100 with txHash := some "hash9" }] ∧
    (settleBet [] 0 (Except.ok "hash9") "bet123" "WIN" 100).ret =
      Except.ok { mkPending 0 "bet123" "WIN" 100 with txHash := some "hash9" } ∧
    (mkPending 0 "bet123" "WIN" 100).status = SettlementStatus.PENDING ∧
    (mkPending 0 "bet123" "WIN" 100).txHash = none ∧
    ({ mkPending 0 "bet123" "WIN" 100 with txHash := some "hash9" }).status =
      SettlementStatus.PENDING :=
  settleBet_fresh_success [] 0 "bet123" "WIN" 100 "hash9" (by decide)

/-- C7: on a fresh settlement attempt whose gateway call throws `err`,
`settleBet` persists the record with status FAILED (third trace entry),
re-raises the error to the caller instead of returning normally, and the
final store holds the FAILED record — it is not left PENDING. -/
theorem settleBet_gateway_error_fails (store : List Settlement) (nextId : Nat)
    (betId outcome : String) (amount : Nat) (err : String)
    (hnone : findOne store ("settle_" ++ betId) = none)
    (hid : ∀ t ∈ store, t.id ≠ nextId) :
    (settleBet store nextId (Except.error err) betId outcome amount).ret =
      Except.error err ∧
    (settleBet store nextId (Except.error err) betId outcome amount).trace =
      [Ev.save (mkPending nextId betId outcome amount), Ev.gatewayCall,
       Ev.save { mkPending nextId betId outcome amount with
                   status := SettlementStatus.FAILED }] ∧
    (settleBet store nextId (Except.error err) betId outcome amount).store =
      store ++ [{ mkPending nextId betId outcome amount with
                    status := SettlementStatus.FAILED }] ∧
    ({ mkPending nextId betId outcome amount with
         status := SettlementStatus.FAILED }).status = SettlementStatus.FAILED := by
  simp only [settleBet]
  rw [hnone]
  refine ⟨rfl, rfl, ?_, trivial⟩
  show save (save store (mkPending nextId betId outcome amount)) _ = _
  rw [save_fresh store (mkPending nextId betId outcome amount) hid]
  exact save_update_append store (mkPending nextId betId outcome amount) _ hid rfl

/-- Witness instantiating `settleBet_gateway_error_fails` on the empty
store with a throwing gateway. -/
theorem settleBet_gateway_error_fails_witness :
    (settleBet [] 0 (Except.error "boom") "bet123" "WIN" 100).ret =
      Except.error "boom" ∧
    (settleBet [] 0 (Except.error "boom") "bet123" "WIN" 100).trace =
      [Ev.save (mkPending 0 "bet123" "WIN" 100), Ev.gatewayCall,
       Ev.save { mkPending 0 "bet123" "WIN" 100 with
                   status := SettlementStatus.FAILED }] ∧
    (settleBet [] 0 (Except.error "boom") "bet123" "WIN" 100).store =
      [] ++ [{ mkPending 0 "bet123" "WIN" 100 with
                 status := SettlementStatus.FAILED }] ∧
    ({ mkPending 0 "bet123" "WIN" 100 with
         status := SettlementStatus.FAILED }).status = SettlementStatus.FAILED :=
  settleBet_gateway_error_fails [] 0 "bet123" "WIN" 100 "boom" (by decide)
    (by intro t ht hc; cases ht)

/-- An existing FAILED settlement record for bet `bet1`, used to exhibit
the behavior of `settleBet` on a FAILED record. -/
def c2Failed : Settlement :=
  { id := 0, referenceId := "settle_bet1", betId := "bet1", outcome := "WIN",
    amount := 100, status := SettlementStatus.FAILED, txHash := none }

/-- The fresh record the retry attempt produces for bet `bet1`. -/
def c2New : Settlement :=
  { mkPending 1 "bet1" "WIN" 100 with txHash := some "h1" }

/-- C2 counterexample: with an existing FAILED record for
`settle_bet1`, `settleBet` does NOT return that record without side
effects — it invokes the gateway once, returns a freshly created record
distinct from the FAILED one, and grows the store. The source's FAILED
branch falls through to the fresh-submission path. -/
theorem settleBet_failed_retries_counterexample :
    countGatewayCalls
        (settleBet [c2Failed] 1 (Except.ok "h1") "bet1" "WIN" 100).trace = 1 ∧
    (settleBet [c2Failed] 1 (Except.ok "h1") "bet1" "WIN" 100).ret =
      Except.ok c2New ∧
    c2New ≠ c2Failed ∧
    (settleBet [c2Failed] 1 (Except.ok "h1") "bet1" "WIN" 100).store ≠
      [c2Failed] := by
  refine ⟨rfl, rfl, ?_, ?_⟩ <;> decide

/-- C2 amended: when the existing record for `settle_<betId>` has status
FAILED, `settleBet` falls through to the fresh-submission path — it
creates and persists a new PENDING record and invokes the gateway,
exactly as for a first-time call (an implicit retry); it does not return
the FAILED record. -/
theorem settleBet_failed_falls_through (store : List Settlement)
    (nextId : Nat) (gateway : Except String String) (betId outcome : String)
    (amount : Nat) (e : Settlement)
    (hfind : findOne store ("settle_" ++ betId) = some e)
    (hf : e.status = SettlementStatus.FAILED) :
    settleBet store nextId gateway betId outcome amount =
      submitFresh store nextId gateway betId outcome amount := by
  simp only [settleBet]
  rw [hfind]
  simp [hf]

/-- Witness instantiating `settleBet_failed_falls_through` at the
concrete FAILED record. -/
theorem settleBet_failed_falls_through_witness :
    settleBet [c2Failed] 1 (Except.ok "h1") "bet1" "WIN" 100 =
      submitFresh [c2Failed] 1 (Except.ok "h1") "bet1" "WIN" 100 :=
  settleBet_failed_falls_through [c2Failed] 1 (Except.ok "h1") "bet1" "WIN"
    100 c2Failed (by decide) (by decide)

/-! ### Claim theorems: reconciliation sweep -/

/-- A PENDING settlement with a transaction hash attached, as left by a
successful submission. -/
def c1Rec : Settlement :=
  { id := 1, referenceId := "settle_bet1", betId := "bet1", outcome := "WIN",
    amount := 100, status := SettlementStatus.PENDING,
    txHash := some "mock_tx_hash_1" }

/-- C1 evidence: `reconcile` marks a PENDING record that has a `txHash`
CONFIRMED while issuing zero gateway status queries — the source's
`getTransactionStatus` call is commented out and the loop assumes
success, so ambiguous or unreachable gateway outcomes cannot leave the
record PENDING as the spec requires. -/
theorem reconcile_confirms_without_gateway_query :
    (reconcile noFail [c1Rec]).store =
      [{ c1Rec with status := SettlementStatus.CONFIRMED }] ∧
    (reconcile noFail [c1Rec]).gatewayQueries = 0 :=
  ⟨rfl, rfl⟩

/-- First PENDING record of the C9 counterexample sweep: no `txHash`, so
the loop saves its FAILED status outside the try/catch. -/
def c9First : Settlement :=
  { id := 1, referenceId := "settle_a", betId := "a", outcome := "WIN",
    amount := 5, status := SettlementStatus.PENDING, txHash := none }

/-- Second PENDING record of the C9 counterexample sweep. -/
def c9Second : Settlement :=
  { id := 2, referenceId := "settle_b", betId := "b", outcome := "LOSE",
    amount := 7, status := SettlementStatus.PENDING, txHash := none }

/-- C9 counterexample: a store failure while persisting the FAILED
status of the first record (which has no `txHash`) aborts the whole
sweep — `reconcile` propagates the exception and the second PENDING
record is left untouched, still PENDING, instead of being processed
independently. -/
theorem reconcile_abort_counterexample :
    (reconcile (fun s => decide (s.id = 1)) [c9First, c9Second]).aborted =
      true ∧
    findById (reconcile (fun s => decide (s.id = 1))
        [c9First, c9Second]).store 2 = some c9Second ∧
    c9Second.status = SettlementStatus.PENDING :=
  ⟨rfl, rfl, rfl⟩

/-- Helper for the amended C9: the sweep loop can only abort from the
no-`txHash` branch, whose saved record still has `txHash = none`. -/
theorem reconcileLoop_no_abort (saveFails : Settlement → Bool)
    (h : ∀ s, s.txHash = none → saveFails s = false) :
    ∀ (l : List Settlement) (store : List Settlement),
      (reconcileLoop saveFails store l).aborted = false := by
  intro l
  induction l with
  | nil => intro store; rfl
  | cons s rest ih =>
    intro store
    unfold reconcileLoop
    cases hx : s.txHash with
    | none =>
        dsimp only
        have hs :
            saveFails { s with status := SettlementStatus.FAILED, txHash := none } = false :=
          h _ rfl
        simp only [hs, Bool.false_eq_true, if_false]
        exact ih _
    | some v =>
        dsimp only
        split
        · exact ih _
        · exact ih _

/-- C9 amended: errors while reconciling a record whose `txHash` is
present are caught per record and never abort the sweep — whenever the
only failing saves are for records carrying a `txHash`, `reconcile`
completes the full sweep. (A failing save for a record without `txHash`
aborts it, per `reconcile_abort_counterexample`.) -/
theorem reconcile_confirm_errors_isolated (saveFails : Settlement → Bool)
    (store : List Settlement)
    (h : ∀ s, s.txHash = none → saveFails s = false) :
    (reconcile saveFails store).aborted = false :=
  reconcileLoop_no_abort saveFails h _ store

/-- Witness instantiating `reconcile_confirm_errors_isolated` with a
store rejecting every save of a record that carries a `txHash`. -/
theorem reconcile_confirm_errors_isolated_witness :
    (reconcile (fun s => s.txHash.isSome) [c9First, c1Rec]).aborted =
      false :=
  reconcile_confirm_errors_isolated (fun s => s.txHash.isSome)
    [c9First, c1Rec] (by intro s hs; simp [hs])

/-! ### Lemmas about lookups through saves -/

theorem find?_map_update_ne (st : List Settlement) (s : Settlement) (i : Nat)
    (hne : s.id ≠ i) :
    (st.map (fun t => if t.id = s.id then s else t)).find?
        (fun t => decide (t.id = i)) =
      st.find? (fun t => decide (t.id = i)) := by
  induction st with
  | nil => rfl
  | cons t ts ih =>
    by_cases ht : t.id = s.id
    · rw [List.map_cons, if_pos ht, List.find?_cons_of_neg, List.find?_cons_of_neg]
      · exact ih
      · simp [ht, hne]
      · simp [hne]
    · rw [List.map_cons, if_neg ht]
      by_cases hti : t.id = i
      · rw [List.find?_cons_of_pos _ (by simp [hti]),
          List.find?_cons_of_pos _ (by simp [hti])]
      · rw [List.find?_cons_of_neg _ (by simp [hti]),
          List.find?_cons_of_neg _ (by simp [hti])]
        exact ih

theorem find?_map_update_hit (st : List Settlement) (s : Settlement)
    (h : ∃ t ∈ st, t.id = s.id) :
    (st.map (fun t => if t.id = s.id then s else t)).find?
        (fun t => decide (t.id = s.id)) = some s := by
  induction st with
  | nil => obtain ⟨t, ht, _⟩ := h; cases ht
  | cons t ts ih =>
    by_cases ht : t.id = s.id
    · rw [List.map_cons, if_pos ht, List.find?_cons_of_pos _ (by simp)]
    · rw [List.map_cons, if_neg ht, List.find?_cons_of_neg _ (by simp [ht])]
      apply ih
      obtain ⟨u, hu, hui⟩ := h
      rcases List.mem_cons.mp hu with rfl | hu'
      · exact absurd hui ht
      · exact ⟨u, hu', hui⟩

theorem findById_save_ne (st : List Settlement) (s : Settlement) (i : Nat)
    (hne : s.id ≠ i) : findById (save st s) i = findById st i := by
  unfold save findById
  split
  · exact find?_map_update_ne st s i hne
  · rw [List.find?_append]
    have : List.find? (fun t => decide (t.id = i)) [s] = none := by
      simp [hne]
    rw [this, Option.or_none]

theorem findById_save_self (st : List Settlement) (s : Settlement)
    (h : ∃ t ∈ st, t.id = s.id) : findById (save st s) s.id = some s := by
  unfold save findById
  have hany : st.any (fun t => decide (t.id = s.id)) = true := by
    rw [List.any_eq_true]
    obtain ⟨t, ht, hti⟩ := h
    exact ⟨t, ht, by simp [hti]⟩
  rw [hany]
  simp only [if_true]
  exact find?_map_update_hit st s h

theorem exists_id_save (st : List Settlement) (s : Settlement) (j : Nat)
    (h : ∃ t ∈ st, t.id = j) : ∃ t ∈ save st s, t.id = j := by
  obtain ⟨t, ht, htj⟩ := h
  unfold save
  split
  · refine ⟨if t.id = s.id then s else t, List.mem_map_of_mem _ ht, ?_⟩
    by_cases hts : t.id = s.id
    · rw [if_pos hts, ← hts]; exact htj
    · rw [if_neg hts]; exact htj
  · exact ⟨t, List.mem_append_left _ ht, htj⟩

/-! ### The sweep resolves hash-less PENDING records to FAILED -/

/-- The terminal record the sweep writes for a PENDING snapshot entry:
FAILED when no `txHash` is attached, CONFIRMED otherwise. -/
def resolvePending (s : Settlement) : Settlement :=
  match s.txHash with
  | none => { s with status := SettlementStatus.FAILED }
  | some _ => { s with status := SettlementStatus.CONFIRMED }

theorem reconcileLoop_noFail_cons (st : List Settlement) (s : Settlement)
    (rest : List Settlement) :
    reconcileLoop noFail st (s :: rest) =
      reconcileLoop noFail (save st (resolvePending s)) rest := by
  simp only [reconcileLoop, resolvePending]
  cases s.txHash <;> simp [noFail]

theorem reconcileLoop_untouched (sf : Settlement → Bool) (i : Nat) :
    ∀ (l : List Settlement) (st : List Settlement), (∀ s ∈ l, s.id ≠ i) →
      findById (reconcileLoop sf st l).store i = findById st i := by
  intro l
  induction l with
  | nil => intro st _; rfl
  | cons s rest ih =>
    intro st h
    have hs : s.id ≠ i := h s (List.mem_cons_self s rest)
    have hrest : ∀ t ∈ rest, t.id ≠ i := fun t ht => h t (List.mem_cons_of_mem s ht)
    unfold reconcileLoop
    cases s.txHash with
    | none =>
        dsimp only
        split
        · rfl
        · exact (ih _ hrest).trans (findById_save_ne st _ i hs)
    | some v =>
        dsimp only
        split
        · exact ih _ hrest
        · exact (ih _ hrest).trans (findById_save_ne st _ i hs)

theorem reconcileLoop_resolves_no_txhash :
    ∀ (l : List Settlement) (st : List Settlement) (r : Settlement),
      r ∈ l → r.txHash = none → (l.map Settlement.id).Nodup →
      (∃ t ∈ st, t.id = r.id) →
      findById (reconcileLoop noFail st l).store r.id =
        some { r with status := SettlementStatus.FAILED } := by
  intro l
  induction l with
  | nil => intro st r hr; cases hr
  | cons s rest ih =>
    intro st r hr ht hnd hex
    rw [reconcileLoop_noFail_cons]
    rcases List.mem_cons.mp hr with rfl | hr'
    · have hres : resolvePending r = { r with status := SettlementStatus.FAILED } := by
        unfold resolvePending
        rw [ht]
      have hids : ∀ t ∈ rest, t.id ≠ r.id := by
        intro t htm heq
        have hni := (List.nodup_cons.mp hnd).1
        exact hni (heq ▸ List.mem_map_of_mem Settlement.id htm)
      rw [reconcileLoop_untouched noFail r.id rest _ hids, hres]
      exact findById_save_self st _ ⟨hex.choose, hex.choose_spec⟩
    · exact ih _ r hr' ht (List.nodup_cons.mp hnd).2
        (exists_id_save st (resolvePending s) r.id hex)

/-- C4: every PENDING settlement record without a `txHash` is resolved
to FAILED by the reconciliation sweep and persisted as such — it is
never marked CONFIRMED. -/
theorem reconcile_no_txhash_marks_failed (store : List Settlement)
    (r : Settlement) (hmem : r ∈ store)
    (hp : r.status = SettlementStatus.PENDING) (ht : r.txHash = none)
    (hnd : (store.map Settlement.id).Nodup) :
    findById (reconcile noFail store).store r.id =
      some { r with status := SettlementStatus.FAILED } := by
  unfold reconcile
  apply reconcileLoop_resolves_no_txhash
  · exact List.mem_filter.mpr ⟨hmem, by simp [hp]⟩
  · exact ht
  · exact hnd.sublist ((List.filter_sublist store).map Settlement.id)
  · exact ⟨r, hmem, rfl⟩

/-- Witness instantiating `reconcile_no_txhash_marks_failed` at a
one-record store. -/
theorem reconcile_no_txhash_marks_failed_witness :
    findById (reconcile noFail [c9First]).store c9First.id =
      some { c9First with status := SettlementStatus.FAILED } :=
  reconcile_no_txhash_marks_failed [c9First] c9First (by simp) (by decide)
    (by decide) (by decide)

/-! ### Idempotency across settle, reconcile, settle -/

/-- The record as returned by the first `settleBet` call: submitted,
hash attached, still PENDING. -/
def c3Submitted (betId outcome : String) (amount : Nat) (h : String) :
    Settlement :=
  { mkPending 0 betId outcome amount with txHash := some h }

/-- The same row after the sweep confirms it. -/
def c3Confirmed (betId outcome : String) (amount : Nat) (h : String) :
    Settlement :=
  { mkPending 0 betId outcome amount with
      txHash := some h
      status := SettlementStatus.CONFIRMED }

/-- C3: starting from an empty store, `settleBet` is called, the sweep
confirms the submitted record, and `settleBet` is called again for the
same bet. The first call returns the submitted record; the sweep leaves
exactly that record, now CONFIRMED; the second call returns that
CONFIRMED record unchanged, with an empty trace and an unchanged store,
regardless of what a second gateway call would have produced; the
gateway is invoked exactly once across both calls. Both calls return the
same record — the row with id 0 and reference `settle_<betId>` — which
ends in the terminal CONFIRMED state. -/
theorem settleBet_idempotent_after_confirm (betId outcome : String)
    (amount : Nat) (h : String) (gateway2 : Except String String) :
    (settleBet [] 0 (Except.ok h) betId outcome amount).ret =
      Except.ok (c3Submitted betId outcome amount h) ∧
    (reconcile noFail
        (settleBet [] 0 (Except.ok h) betId outcome amount).store).store =
      [c3Confirmed betId outcome amount h] ∧
    settleBet (reconcile noFail
        (settleBet [] 0 (Except.ok h) betId outcome amount).store).store 1
        gateway2 betId outcome amount =
      { store := [c3Confirmed betId outcome amount h]
        ret := Except.ok (c3Confirmed betId outcome amount h)
        trace := [] } ∧
    countGatewayCalls
        (settleBet [] 0 (Except.ok h) betId outcome amount).trace +
      countGatewayCalls
        (settleBet (reconcile noFail
            (settleBet [] 0 (Except.ok h) betId outcome amount).store).store 1
            gateway2 betId outcome amount).trace = 1 ∧
    (c3Submitted betId outcome amount h).id =
      (c3Confirmed betId outcome amount h).id ∧
    (c3Confirmed betId outcome amount h).status =
      SettlementStatus.CONFIRMED := by
  have hfind : findOne [c3Confirmed betId outcome amount h]
      ("settle_" ++ betId) = some (c3Confirmed betId outcome amount h) := by
    unfold findOne
    exact List.find?_cons_of_pos _ (by simp [c3Confirmed, mkPending])
  have hcall2 : settleBet (reconcile noFail
      (settleBet [] 0 (Except.ok h) betId outcome amount).store).store 1
      gateway2 betId outcome amount =
      { store := [c3Confirmed betId outcome amount h]
        ret := Except.ok (c3Confirmed betId outcome amount h)
        trace := [] } := by
    show settleBet [c3Confirmed betId outcome amount h] 1 gateway2 betId
        outcome amount = _
    simp only [settleBet]
    rw [hfind]
    rfl
  refine ⟨rfl, rfl, hcall2, ?_, rfl, rfl⟩
  rw [hcall2]
  rfl

/-! ### Leaderboard aggregation invariants -/

/-- The row invariants of the statistics aggregate: the bet counters are
consistent, the accuracy equals the rounded win percentage (0 when no
bet has settled), and the current streak never exceeds the recorded
peak. -/
def StatsInv (s : LeaderboardStats) : Prop :=
  s.totalBets = s.betsWon + s.betsLost ∧
  (0 < s.totalBets →
    s.bettingAccuracy =
      round2 ((s.betsWon : ℚ) / (s.totalBets : ℚ) * 100)) ∧
  (s.totalBets = 0 → s.bettingAccuracy = 0) ∧
  s.winningStreak ≤ s.highestWinningStreak

theorem statsInv_handleBetSettled (s : LeaderboardStats)
    (e : BetSettledEvent) (hs : StatsInv s) :
    StatsInv (handleBetSettled s e) := by
  obtain ⟨h1, _, _, h4⟩ := hs
  unfold StatsInv handleBetSettled
  cases hw : e.isWin <;> simp only [if_true, if_false, Bool.false_eq_true] <;>
    refine ⟨by omega, fun _ => trivial, by omega, ?_⟩
  · exact Nat.zero_le _
  · exact le_max_right _ _

theorem statsInv_foldl :
    ∀ (l : List BetSettledEvent) (s : LeaderboardStats), StatsInv s →
      StatsInv (l.foldl handleBetSettled s) := by
  intro l
  induction l with
  | nil => intro s hs; exact hs
  | cons e rest ih =>
      intro s hs
      exact ih _ (statsInv_handleBetSettled s e hs)

theorem statsInv_init : StatsInv initStats := by
  refine ⟨rfl, ?_, fun _ => rfl, Nat.le_refl 0⟩
  intro h
  cases h

/-- C8: after any sequence of `BetSettled` events applied to a fresh
leaderboard row — hence after each event of any longer sequence, every
prefix being such a sequence — the row satisfies
`totalBets = betsWon + betsLost`, the accuracy equals
`round(betsWon / totalBets * 100, 2)` whenever `totalBets > 0` and is 0
otherwise, and `winningStreak ≤ highestWinningStreak`. -/
theorem leaderboard_stats_invariants (l : List BetSettledEvent) :
    (applyEvents l).totalBets =
        (applyEvents l).betsWon + (applyEvents l).betsLost ∧
    (0 < (applyEvents l).totalBets →
      (applyEvents l).bettingAccuracy =
        round2 (((applyEvents l).betsWon : ℚ) /
          ((applyEvents l).totalBets : ℚ) * 100)) ∧
    ((applyEvents l).totalBets = 0 → (applyEvents l).bettingAccuracy = 0) ∧
    (applyEvents l).winningStreak ≤ (applyEvents l).highestWinningStreak :=
  statsInv_foldl l initStats statsInv_init

end Renaissance
